import Mathlib

/-!
Shallow embedding of `src/LULC_Prediction_2033_code.js`, a Google Earth
Engine script that encodes land-cover transitions between the 2014 and 2024
class rasters, trains a classifier, forecasts 2033, and aggregates per-class
areas.  Raster operations in the script are pointwise, so rasters are
embedded by their per-cell semantics; record sets are embedded as lists.
-/

namespace LULC

/-- Land cover class codes (`values`, source line 2). -/
def values : List Nat := [1, 2, 3, 4, 5, 6]

/-- Land cover class names (`names`, source lines 6-8). -/
def names : List String :=
  ["Waterbody", "Dense forest", "Agriculture land", "Range land", "Builtup", "Barren land"]

/-- The transition encoding `value1 * 1e2 + value2` (source line 44). -/
def changeValue (v1 v2 : Nat) : Nat := v1 * 100 + v2

/-- Decoding by quotient, the inverse direction of `changeValue`. -/
def decodeFrom (n : Nat) : Nat := n / 100

/-- Decoding by remainder, the inverse direction of `changeValue`. -/
def decodeTo (n : Nat) : Nat := n % 100

/-- Pointwise semantics of the nested `values.map` loop building `changeMap`
(source lines 41-52): start from the constant image `0` and, for every ordered
pair `(value1, value2)` of catalog codes, overwrite the cells where the 2014
image equals `value1` and the 2024 image equals `value2` with
`changeValue value1 value2`.  `a` and `b` are the 2014 and 2024 class codes of
one cell. -/
def changeMapCell (catalog : List Nat) (a b : Nat) : Nat :=
  catalog.foldl (fun acc v1 =>
    catalog.foldl (fun acc2 v2 =>
      if a = v1 ∧ b = v2 then changeValue v1 v2 else acc2) acc) 0

/-- Pointwise `selfMask` (source line 55): a cell whose value is `0` becomes
masked; every other cell keeps its value. -/
def selfMaskCell (x : Nat) : Option Nat := if x = 0 then none else some x

/-- The transition band the script actually feeds to `variables` (line 66)
and `variables2025` (line 107): because line 55 reassigns
`changeMap = changeMap.selfMask()` before either image is assembled, the
downstream band is the self-masked raster. -/
def transitionBandCell (catalog : List Nat) (a b : Nat) : Option Nat :=
  selfMaskCell (changeMapCell catalog a b)

/-- `changeValues` (source lines 38, 45-46): the flattened list of encoded
transition values pushed by the nested loop, in loop order. -/
def changeValuesList (vals : List Nat) : List Nat :=
  (vals.map (fun v1 => vals.map (fun v2 => changeValue v1 v2))).flatten

/-- `changeNames` (source lines 39, 48-49): the flattened list of transition
labels `names[index1] + ' -> ' + names[index2]` pushed by the nested loop. -/
def changeNamesList (nms : List String) : List String :=
  (nms.map (fun n1 => nms.map (fun n2 => n1 ++ " -> " ++ n2))).flatten

/-- `changeDict` (source lines 59-60): the transition catalog pairing each
encoded value with its label, built from the two parallel lists. -/
def changeDictEntries (vals : List Nat) (nms : List String) : List (Nat × String) :=
  (changeValuesList vals).zip (changeNamesList nms)

/-- The transition-encoder construction as the source performs it
(lines 38-60): the source contains no validation of the catalog size, so
construction is total and always returns the pointwise raster semantics
together with the value and name catalogs.  The `Option` result records
whether a configuration error is raised: the source never raises one. -/
def buildEncoder (vals : List Nat) (nms : List String) :
    Option ((Nat → Nat → Nat) × List Nat × List String) :=
  some (changeMapCell vals, changeValuesList vals, changeNamesList nms)

/-- Pointwise `a.neq(b)`: `1` where the two class codes differ, `0` where they
agree. -/
def neqCell (a b : Nat) : Nat := if a = b then 0 else 1

/-- Pointwise `ee.Image(y).multiply(a.neq(b))`: the `year` band.  Source
line 68 uses `yearBandCell 2024 (lulc2014 cell) (lulc2024 cell)`; source
line 109 uses `yearBandCell 2033 (lulc2024 cell) (lulc2014 cell)`. -/
def yearBandCell (y a b : Nat) : Nat := y * neqCell a b

/-- One sampled record: the bands of `variables` at a sample point
(source lines 63-69), plus the uniform random field attached by
`randomColumn()` (line 84).  The random field is modelled as a rational
number. -/
structure SampleRecord where
  start : Nat
  endClass : Nat
  transition : Nat
  elevation : Int
  year : Nat
  random : ℚ
deriving DecidableEq

/-- `train = sample.filter(ee.Filter.lte('random', 0.8))` (source line 86). -/
def trainSplit (sample : List SampleRecord) : List SampleRecord :=
  sample.filter (fun s => s.random ≤ 8/10)

/-- `test = sample.filter(ee.Filter.gt('random', 0.8))` (source line 87). -/
def testSplit (sample : List SampleRecord) : List SampleRecord :=
  sample.filter (fun s => 8/10 < s.random)

/-- One raster cell inside the region of interest for one epoch image: its
class code (the image band) together with its pixel area in square meters
(`ee.Image.pixelArea()`). -/
structure Cell where
  classCode : Nat
  pixelAreaM2 : ℚ
deriving DecidableEq

/-- `ee.Image.pixelArea().divide(10000)` (source line 121): per-pixel area in
hectares. -/
def areaHa (c : Cell) : ℚ := c.pixelAreaM2 / 10000

/-- Modelled from the spec: the group keys produced by the external grouped
reduction backend (`reduceByGroup` in the spec's external interfaces, invoked
at source lines 122-127 through
`ee.Reducer.sum().setOutputs(['area']).group(1, 'class')`).  Each distinct
class code of the region contributes exactly one group; the claims checked
here do not depend on the order of the groups within one epoch. -/
def classKeys (cells : List Cell) : List Nat :=
  (cells.map Cell.classCode).dedup

/-- The summed hectare area of one class group (the grouped
`ee.Reducer.sum()` of the area band). -/
def classArea (cells : List Cell) (code : Nat) : ℚ :=
  ((cells.filter (fun c => c.classCode = code)).map areaHa).sum

/-- `ee.List(names).get(i)` with Earth Engine list semantics: a negative
index counts backwards from the end of the list, and an index that is still
out of range raises a computation error that aborts evaluation — it does not
yield a missing element.  The error path is modelled explicitly with
`Except.error`. -/
def eeListGet (l : List String) (i : Int) : Except String String :=
  let j : Int := if i < 0 then (l.length : Int) + i else i
  if 0 ≤ j ∧ j < (l.length : Int) then Except.ok (l.getD j.toNat "")
  else Except.error "List.get: List index must be in range"

/-- The relabeling at source line 129:
`ee.List(names).get(ee.Number(dictionary.get('class')).subtract(1))`. -/
def lulcLabel (code : Nat) : Except String String :=
  eeListGet names ((code : Int) - 1)

/-- One output row of the aggregator (source lines 128-134): the group's
class code and summed area, the epoch year, and the result of the class-name
lookup (a label, or the lookup's evaluation error). -/
structure AreaRecord where
  classCode : Nat
  area : ℚ
  year : Nat
  lulc : Except String String

/-- `features` for one epoch (source lines 128-134): one `AreaRecord` per
class group, tagged with the epoch's year and relabelled via `lulcLabel`. -/
def epochFeatures (year : Nat) (cells : List Cell) : List AreaRecord :=
  (classKeys cells).map (fun code =>
    { classCode := code, area := classArea cells code, year := year,
      lulc := lulcLabel code })

/-- `lulcAreafeatures` (source lines 120-138): the flattened feature
collection over the epoch list, in list order.  After line 113 pushes the
2033 forecast, the epoch list is `[(2014, _), (2024, _), (2033, _)]`. -/
def lulcAreaFeatures (epochs : List (Nat × List Cell)) : List AreaRecord :=
  (epochs.map (fun e => epochFeatures e.1 e.2)).flatten

/-- The single output record of `epochFeatures` on a one-cell region of
class 1 and pixel area 100 m², used as a concrete evaluation point. -/
def c8SampleRecord : AreaRecord :=
  { classCode := 1, area := classArea [⟨1, 100⟩] 1, year := 2014,
    lulc := lulcLabel 1 }

/-! ### Characterisation of the change-map fold -/

lemma changeMapCell_inner (v1 a b : Nat) (l : List Nat) (acc : Nat) :
    l.foldl (fun acc2 v2 => if a = v1 ∧ b = v2 then changeValue v1 v2 else acc2) acc =
      if a = v1 ∧ b ∈ l then changeValue a b else acc := by
  induction l generalizing acc with
  | nil => simp
  | cons v2 t ih =>
    rw [List.foldl_cons, ih]
    by_cases h1 : a = v1 <;> by_cases h2 : b = v2 <;> by_cases h3 : b ∈ t <;>
      subst_eqs <;> simp_all

lemma changeMapCell_outer (a b : Nat) (catalog l : List Nat) (acc : Nat) :
    l.foldl (fun acc v1 =>
        catalog.foldl (fun acc2 v2 =>
          if a = v1 ∧ b = v2 then changeValue v1 v2 else acc2) acc) acc =
      if a ∈ l ∧ b ∈ catalog then changeValue a b else acc := by
  induction l generalizing acc with
  | nil => simp
  | cons v1 t ih =>
    rw [List.foldl_cons, ih, changeMapCell_inner]
    by_cases h1 : a = v1 <;> by_cases h2 : b ∈ catalog <;> by_cases h3 : a ∈ t <;>
      subst_eqs <;> simp_all

/-- The nested fold writes `changeValue a b` exactly at the cells whose pair of
codes lies in the catalog, and leaves the initial `0` elsewhere. -/
lemma changeMapCell_eq (catalog : List Nat) (a b : Nat) :
    changeMapCell catalog a b =
      if a ∈ catalog ∧ b ∈ catalog then changeValue a b else 0 := by
  unfold changeMapCell
  exact changeMapCell_outer a b catalog catalog 0

/-- Indexing into the flattening of a list of equal-length lists: position
`i1 * K + i2` addresses element `i2` of block `i1`. -/
lemma flatten_get_uniform {α : Type _} (K : Nat) (L : List (List α)) :
    ∀ i1 i2 : Nat, (∀ l ∈ L, l.length = K) → i2 < K →
      L.flatten.get? (i1 * K + i2) = (L.get? i1).bind (fun l => l.get? i2) := by
  induction L with
  | nil => intro i1 i2 _ _; simp
  | cons l t ih =>
    intro i1 i2 hK h2
    have hl : l.length = K := hK l (by simp)
    cases i1 with
    | zero =>
      simp only [List.flatten_cons, Nat.zero_mul, Nat.zero_add]
      rw [List.get?_append (by omega)]
      simp
    | succ n =>
      simp only [List.flatten_cons]
      have e : (n + 1) * K + i2 = l.length + (n * K + i2) := by rw [hl]; ring
      rw [e, List.get?_append_right (by omega)]
      have e2 : l.length + (n * K + i2) - l.length = n * K + i2 := by omega
      rw [e2, ih n i2 (fun x hx => hK x (by simp [hx])) h2]
      simp

lemma changeValuesList_length (vals : List Nat) :
    (changeValuesList vals).length = vals.length * vals.length := by
  simp [changeValuesList, List.length_flatten, List.map_map, Function.comp_def,
    List.sum_replicate, smul_eq_mul]

lemma changeNamesList_length (nms : List String) :
    (changeNamesList nms).length = nms.length * nms.length := by
  simp [changeNamesList, List.length_flatten, List.map_map, Function.comp_def,
    List.sum_replicate, smul_eq_mul]

lemma get?_of_lt {α : Type _} (l : List α) (d : α) (i : Nat) (h : i < l.length) :
    l.get? i = some (l.getD i d) := by
  rw [List.getD_eq_getElem l d h, List.get?_eq_get h, List.get_eq_getElem]

lemma changeValuesList_get (vals : List Nat) (i1 i2 : Nat)
    (h1 : i1 < vals.length) (h2 : i2 < vals.length) :
    (changeValuesList vals).get? (i1 * vals.length + i2) =
      some (changeValue (vals.getD i1 0) (vals.getD i2 0)) := by
  rw [changeValuesList,
    flatten_get_uniform vals.length _ i1 i2 (by simp +contextual) h2,
    List.get?_map, get?_of_lt vals 0 i1 h1, Option.map_some', Option.some_bind,
    List.get?_map, get?_of_lt vals 0 i2 h2, Option.map_some']

lemma changeNamesList_get (nms : List String) (i1 i2 : Nat)
    (h1 : i1 < nms.length) (h2 : i2 < nms.length) :
    (changeNamesList nms).get? (i1 * nms.length + i2) =
      some (nms.getD i1 "" ++ " -> " ++ nms.getD i2 "") := by
  rw [changeNamesList,
    flatten_get_uniform nms.length _ i1 i2 (by simp +contextual) h2,
    List.get?_map, get?_of_lt nms "" i1 h1, Option.map_some', Option.some_bind,
    List.get?_map, get?_of_lt nms "" i2 h2, Option.map_some']

lemma split_length (sample : List SampleRecord) :
    (trainSplit sample).length + (testSplit sample).length = sample.length := by
  unfold trainSplit testSplit
  induction sample with
  | nil => rfl
  | cons s t ih =>
    by_cases h : s.random ≤ 8/10
    · simp only [List.filter_cons]
      rw [if_pos (by simpa using h), if_neg (by simpa using not_lt.mpr h)]
      simpa using by omega
    · simp only [List.filter_cons]
      rw [if_neg (by simpa using h), if_pos (by simpa using not_le.mp h)]
      simpa using by omega

/-! ### C1 -/

/-- C1: for every class catalog `{1..K}` with `K < 100` and all valid code
pairs, the transition encoding `changeValue v1 v2 = v1*100 + v2` is injective
over `C × C`, and decoding by quotient and remainder by 100 recovers the pair
exactly. -/
theorem c1_encode_injective_and_decodes (K v1 v2 w1 w2 : Nat) (hK : K < 100)
    (hv1 : 1 ≤ v1 ∧ v1 ≤ K) (hv2 : 1 ≤ v2 ∧ v2 ≤ K)
    (hw1 : 1 ≤ w1 ∧ w1 ≤ K) (hw2 : 1 ≤ w2 ∧ w2 ≤ K) :
    (changeValue v1 v2 = changeValue w1 w2 → v1 = w1 ∧ v2 = w2) ∧
    decodeFrom (changeValue v1 v2) = v1 ∧ decodeTo (changeValue v1 v2) = v2 := by
  unfold changeValue decodeFrom decodeTo
  omega

/-- Witness for C1 at `K = 6`, pair `(3, 5)` against pair `(3, 5)`. -/
theorem c1_encode_injective_and_decodes_witness :
    (changeValue 3 5 = changeValue 3 5 → 3 = 3 ∧ 5 = 5) ∧
    decodeFrom (changeValue 3 5) = 3 ∧ decodeTo (changeValue 3 5) = 5 :=
  c1_encode_injective_and_decodes 6 3 5 3 5 (by decide) (by decide) (by decide)
    (by decide) (by decide)

/-! ### C2 -/

/-- C2 counterexample: the claim that the full, unmasked `changeMap` is the
transition band used downstream is false.  At a cell whose class pair `(7, 7)`
is outside the catalog, the band `variables` receives is masked (`none`)
although the full raster holds `0` there, because line 55 reassigns
`changeMap = changeMap.selfMask()` before line 66 builds `variables`; and the
masked variant is not "changed-only": it retains the no-change cell `(1, 1)`
with value `101`. -/
theorem c2_full_raster_downstream_counterexample :
    transitionBandCell values 7 7 ≠ some (changeMapCell values 7 7) ∧
    transitionBandCell values 1 1 = some (changeValue 1 1) := by decide

/-- C2 amended: the self-masked raster — which masks only cells whose encoded
value is `0` and therefore retains no-change cells — is the single variant the
script uses, both as the `transition` band of the downstream feature images
and in the displayed map product. -/
theorem c2_selfmasked_band_used_downstream :
    (∀ a b : Nat, transitionBandCell values a b = selfMaskCell (changeMapCell values a b)) ∧
    ∀ v ∈ values, transitionBandCell values v v = some (changeValue v v) := by
  refine ⟨fun a b => rfl, fun v hv => ?_⟩
  fin_cases hv <;> decide

/-- Witness for C2 amended at catalog class `4`. -/
theorem c2_selfmasked_band_used_downstream_witness :
    transitionBandCell values 4 4 = some (changeValue 4 4) :=
  c2_selfmasked_band_used_downstream.2 4 (by decide)

/-! ### C3 -/

/-- C3 counterexample: for the catalog `{1..100}` (size `K = 100 ≥ 100`) the
transition-encoder construction does not fail with a configuration error: the
source performs no validation, construction succeeds, and it produces an
encoded raster (its cell with class pair `(1, 1)` holds `changeValue 1 1`). -/
theorem c3_no_configuration_error_counterexample :
    (buildEncoder (List.range' 1 100) (List.replicate 100 "c")).isSome = true ∧
    changeMapCell (List.range' 1 100) 1 1 = changeValue 1 1 := by
  have h1 : (1 : Nat) ∈ List.range' 1 100 := by decide
  exact ⟨rfl, by rw [changeMapCell_eq]; simp [h1]⟩

/-- C3 amended: construction of the transition encoder never fails, for
catalogs of every size: the source contains no catalog-size validation and
always produces the encoded raster; the multiplicative encoding does collide
once codes reach 101 (`changeValue 1 101 = changeValue 2 1`), and that
collision goes undetected. -/
theorem c3_construction_total (vals : List Nat) (nms : List String) :
    (buildEncoder vals nms).isSome = true ∧ changeValue 1 101 = changeValue 2 1 :=
  ⟨rfl, by decide⟩

/-! ### C4 -/

/-- C4: for every class catalog of size `K` the transition catalog has
exactly `K²` entries, and the entry for the ordered pair at catalog positions
`(i1, i2)` pairs the encoded value with the label
`name(v1) ++ " -> " ++ name(v2)`. -/
theorem c4_transition_catalog_entries (vals : List Nat) (nms : List String)
    (K : Nat) (hv : vals.length = K) (hn : nms.length = K) :
    (changeDictEntries vals nms).length = K * K ∧
    ∀ i1 i2 : Nat, i1 < K → i2 < K →
      (changeDictEntries vals nms).get? (i1 * K + i2) =
        some (changeValue (vals.getD i1 0) (vals.getD i2 0),
          nms.getD i1 "" ++ " -> " ++ nms.getD i2 "") := by
  subst hv
  constructor
  · rw [changeDictEntries, List.length_zip, changeValuesList_length,
      changeNamesList_length, hn, Nat.min_self]
  · intro i1 i2 h1 h2
    rw [changeDictEntries, List.get?_zip_eq_some]
    refine ⟨changeValuesList_get vals i1 i2 h1 h2, ?_⟩
    have hgn := changeNamesList_get nms i1 i2 (by omega) (by omega)
    rw [hn] at hgn
    exact hgn

/-- Witness for C4 on the script's own catalog (`K = 6`), at the pair of
catalog positions `(0, 2)`: the entry is
`(changeValue 1 3, "Waterbody -> Agriculture land")`. -/
theorem c4_transition_catalog_entries_witness :
    (changeDictEntries values names).length = 6 * 6 ∧
    (changeDictEntries values names).get? (0 * 6 + 2) =
      some (changeValue (values.getD 0 0) (values.getD 2 0),
        names.getD 0 "" ++ " -> " ++ names.getD 2 "") :=
  ⟨(c4_transition_catalog_entries values names 6 rfl rfl).1,
    (c4_transition_catalog_entries values names 6 rfl rfl).2 0 2 (by decide) (by decide)⟩

/-! ### C5 -/

/-- C5 counterexample: with identical from/to rasters the changed-only masked
variant is not empty: a cell of class `2` encodes `changeValue 2 2 = 202 ≠ 0`,
so `selfMask` keeps it unmasked. -/
theorem c5_masked_variant_not_empty_counterexample :
    changeMapCell values 2 2 = changeValue 2 2 ∧
    transitionBandCell values 2 2 = some (changeValue 2 2) := by decide

/-- C5 amended: when the from- and to-rasters are identical, every cell whose
class `v` is in the catalog encodes `v*100 + v` in the full transition raster,
and the self-masked variant retains exactly those cells (it masks only the
cells whose class lies outside the catalog, whose value stayed `0`). -/
theorem c5_identical_rasters (v : Nat) :
    (v ∈ values → changeMapCell values v v = changeValue v v ∧
      transitionBandCell values v v = some (changeValue v v)) ∧
    (v ∉ values → transitionBandCell values v v = none) := by
  constructor
  · intro hv
    fin_cases hv <;> decide
  · intro hv
    simp [transitionBandCell, selfMaskCell, changeMapCell_eq, hv]

/-- Witness for C5 amended at the catalog class `5` and the foreign class `9`. -/
theorem c5_identical_rasters_witness :
    (changeMapCell values 5 5 = changeValue 5 5 ∧
      transitionBandCell values 5 5 = some (changeValue 5 5)) ∧
    transitionBandCell values 9 9 = none :=
  ⟨(c5_identical_rasters 5).1 (by decide), (c5_identical_rasters 9).2 (by decide)⟩

/-! ### C6 -/

/-- C6: the derived `year` band equals the target year at every cell where the
from- and to-rasters differ and `0` at every other cell — both for the
training image (target year 2024, comparing the 2014 and 2024 rasters) and
for the forecast image (target year 2033, comparing the same two most recent
known epochs in the opposite order). -/
theorem c6_year_indicator_band (a14 a24 : Nat) :
    yearBandCell 2024 a14 a24 = (if a14 = a24 then 0 else 2024) ∧
    yearBandCell 2033 a24 a14 = (if a14 = a24 then 0 else 2033) := by
  unfold yearBandCell neqCell
  rcases eq_or_ne a14 a24 with h | h
  · subst h; simp
  · simp [h, Ne.symm h]

/-! ### C7 -/

/-- C7: the threshold split places every record in exactly one partition, and
the two partition sizes add up to the sample size. -/
theorem c7_split_partitions (sample : List SampleRecord)
    (hr : ∀ s ∈ sample, 0 ≤ s.random ∧ s.random < 1) :
    (trainSplit sample).length + (testSplit sample).length = sample.length ∧
    ∀ s ∈ sample,
      (s ∈ trainSplit sample ∧ s ∉ testSplit sample) ∨
      (s ∈ testSplit sample ∧ s ∉ trainSplit sample) := by
  refine ⟨split_length sample, fun s hs => ?_⟩
  by_cases h : s.random ≤ 8/10
  · left
    constructor
    · simp [trainSplit, List.mem_filter, hs, h]
    · simp [testSplit, List.mem_filter, not_lt.mpr h]
  · right
    constructor
    · simp [testSplit, List.mem_filter, hs, not_le.mp h]
    · simp [trainSplit, List.mem_filter, h]

/-- Witness for C7 on a concrete two-record sample with random fields `1/2`
(train side) and `9/10` (test side). -/
theorem c7_split_partitions_witness :
    (trainSplit [⟨1, 2, 102, 40, 2024, 1/2⟩, ⟨3, 3, 303, 55, 0, 9/10⟩]).length +
        (testSplit [⟨1, 2, 102, 40, 2024, 1/2⟩, ⟨3, 3, 303, 55, 0, 9/10⟩]).length =
      (([⟨1, 2, 102, 40, 2024, 1/2⟩, ⟨3, 3, 303, 55, 0, 9/10⟩] : List SampleRecord)).length ∧
    ∀ s ∈ ([⟨1, 2, 102, 40, 2024, 1/2⟩, ⟨3, 3, 303, 55, 0, 9/10⟩] : List SampleRecord),
      (s ∈ trainSplit [⟨1, 2, 102, 40, 2024, 1/2⟩, ⟨3, 3, 303, 55, 0, 9/10⟩] ∧
        s ∉ testSplit [⟨1, 2, 102, 40, 2024, 1/2⟩, ⟨3, 3, 303, 55, 0, 9/10⟩]) ∨
      (s ∈ testSplit [⟨1, 2, 102, 40, 2024, 1/2⟩, ⟨3, 3, 303, 55, 0, 9/10⟩] ∧
        s ∉ trainSplit [⟨1, 2, 102, 40, 2024, 1/2⟩, ⟨3, 3, 303, 55, 0, 9/10⟩]) :=
  c7_split_partitions [⟨1, 2, 102, 40, 2024, 1/2⟩, ⟨3, 3, 303, 55, 0, 9/10⟩]
    (by intro s hs; fin_cases hs <;> norm_num)

/-! ### C8 -/

/-- C8: the aggregator walks the epochs in chronological order
(2014, 2024, then the 2033 forecast); within each epoch every output record
is tagged with that epoch's year, its area is the per-class sum of pixel
areas converted from square meters to hectares by dividing by 10,000, and its
label is the catalog-name lookup of its class code; and every class code
observed in the epoch's cells contributes a group. -/
theorem c8_area_aggregation (c14 c24 c33 : List Cell) :
    (lulcAreaFeatures [(2014, c14), (2024, c24), (2033, c33)] =
      epochFeatures 2014 c14 ++ epochFeatures 2024 c24 ++ epochFeatures 2033 c33) ∧
    ((lulcAreaFeatures [(2014, c14), (2024, c24), (2033, c33)]).map AreaRecord.year =
      List.replicate (classKeys c14).length 2014 ++
        List.replicate (classKeys c24).length 2024 ++
        List.replicate (classKeys c33).length 2033) ∧
    (∀ y : Nat, ∀ cells : List Cell, ∀ r ∈ epochFeatures y cells,
      r.year = y ∧
      r.area = ((cells.filter (fun c => c.classCode = r.classCode)).map
        (fun c => c.pixelAreaM2 / 10000)).sum ∧
      r.lulc = lulcLabel r.classCode) ∧
    (∀ y : Nat, ∀ cells : List Cell, ∀ c ∈ cells,
      c.classCode ∈ (epochFeatures y cells).map AreaRecord.classCode) := by
  refine ⟨?_, ?_, ?_, ?_⟩
  · simp [lulcAreaFeatures]
  · have hmap : ∀ (y : Nat) (cells : List Cell),
        (epochFeatures y cells).map AreaRecord.year =
          List.replicate (classKeys cells).length y := by
      intro y cells
      rw [epochFeatures, List.map_map]
      exact List.map_const' _ y
    simp [lulcAreaFeatures, hmap]
  · intro y cells r hr
    simp only [epochFeatures, List.mem_map] at hr
    obtain ⟨code, hcode, rfl⟩ := hr
    exact ⟨rfl, rfl, rfl⟩
  · intro y cells c hc
    simp only [epochFeatures, List.map_map, Function.comp]
    simpa [classKeys, List.mem_dedup] using List.mem_map_of_mem Cell.classCode hc

/-- Witness for C8: one epoch with a single cell of class 1 and pixel area
`100` m², whose unique output record carries year 2014, the hectare-converted
class sum, and the class-1 label; and the cell's class contributes a group. -/
theorem c8_area_aggregation_witness :
    (c8SampleRecord.year = 2014 ∧
      c8SampleRecord.area =
        ((([⟨1, 100⟩] : List Cell).filter
            (fun c => c.classCode = c8SampleRecord.classCode)).map
          (fun c => c.pixelAreaM2 / 10000)).sum ∧
      c8SampleRecord.lulc = lulcLabel c8SampleRecord.classCode) ∧
    (⟨1, 100⟩ : Cell).classCode ∈
      (epochFeatures 2014 [⟨1, 100⟩]).map AreaRecord.classCode :=
  ⟨(c8_area_aggregation [⟨1, 100⟩] [] []).2.2.1 2014 [⟨1, 100⟩] c8SampleRecord
      (by simp [epochFeatures, classKeys, c8SampleRecord]),
    (c8_area_aggregation [⟨1, 100⟩] [] []).2.2.2 2014 [⟨1, 100⟩] ⟨1, 100⟩ (by simp)⟩

/-! ### C10 -/

/-- C10 counterexample: a class code greater than `K` does not yield a wrong
or absent label — the lookup at position `classCode - 1` is out of range, and
Earth Engine's `List.get` raises a computation error there, aborting the
evaluation instead of producing a labelled record. -/
theorem c10_out_of_range_error_counterexample :
    lulcLabel 7 = Except.error "List.get: List index must be in range" := rfl

/-- C10 amended: the relabeling looks the name list up at position
`classCode - 1`, so it returns the class's catalog name exactly when the code
lies in `1..K` (`K = 6` names); a code of `0` indexes position `-1`, which
Earth Engine resolves backwards from the end of the list, silently yielding
the last name — a wrong label rather than an error — while a code greater
than `K` is out of range and raises an evaluation error rather than yielding
a wrong or absent label. -/
theorem c10_relabel_wrong_label_or_error (code : Nat) :
    (1 ≤ code → code ≤ names.length →
      lulcLabel code = Except.ok (names.getD (code - 1) "")) ∧
    lulcLabel 0 = Except.ok "Barren land" ∧
    (names.length < code →
      lulcLabel code = Except.error "List.get: List index must be in range") := by
  refine ⟨fun h1 h2 => ?_, rfl, fun h => ?_⟩
  · have h2six : code ≤ 6 := h2
    interval_cases code <;> rfl
  · have h6 : names.length = 6 := rfl
    have hi : ¬((code : Int) - 1 < 0) := by omega
    have hc : ¬(0 ≤ (code : Int) - 1 ∧ (code : Int) - 1 < (names.length : Int)) := by
      omega
    simp only [lulcLabel, eeListGet, if_neg hi, if_neg hc]

/-- Witness for C10 amended at the in-range code `3` and the out-of-range
code `9`. -/
theorem c10_relabel_wrong_label_or_error_witness :
    lulcLabel 3 = Except.ok (names.getD (3 - 1) "") ∧
    lulcLabel 9 = Except.error "List.get: List index must be in range" :=
  ⟨(c10_relabel_wrong_label_or_error 3).1 (by decide) (by decide),
    (c10_relabel_wrong_label_or_error 9).2.2 (by decide)⟩

/-! ### C9 -/

/-- C9: a cell whose `(from, to)` pair is not matched by any ordered pair of
catalog codes keeps the initial value `0`, and after `selfMask` it is masked
out; conversely the masked transition band carries a value only at cells whose
class pair lies entirely within the catalog. -/
theorem c9_unmatched_cells_masked (a b : Nat) :
    (¬(a ∈ values ∧ b ∈ values) →
      changeMapCell values a b = 0 ∧ transitionBandCell values a b = none) ∧
    (transitionBandCell values a b ≠ none → a ∈ values ∧ b ∈ values) := by
  constructor
  · intro h
    have h0 : changeMapCell values a b = 0 := by
      rw [changeMapCell_eq]; simp [h]
    exact ⟨h0, by simp [transitionBandCell, selfMaskCell, h0]⟩
  · intro h
    by_contra hc
    exact h (by simp [transitionBandCell, selfMaskCell, changeMapCell_eq, hc])

/-- Witness for C9 at the uncataloged pair `(7, 3)`. -/
theorem c9_unmatched_cells_masked_witness :
    changeMapCell values 7 3 = 0 ∧ transitionBandCell values 7 3 = none :=
  (c9_unmatched_cells_masked 7 3).1 (by decide)

end LULC
